import Mathlib

/-!
Verification development for a real-time tic-tac-toe session server.

The definitions below are a shallow embedding of the server's JavaScript
source: the game engine (`GameService`), the socket controllers
(`GameController`, `RoomController`), the chat sanitizer
(`validation.js`) and the socket rate limiter (`socketRateLimiter.js`).
JS `Map` objects are modelled as association lists with JS `Map`
insertion/replacement semantics; JS timestamps are `Nat` milliseconds;
JS `null` is `Option.none`; move coordinates arrive as integers (`Int`),
matching the `Number.isInteger` guard of `isValidCoordinate`.
-/

/-! ### Association lists with JS `Map` semantics -/

def getA {α : Type} : List (String × α) → String → Option α
  | [], _ => none
  | (k', v) :: t, k => if k' = k then some v else getA t k

def setA {α : Type} : List (String × α) → String → α → List (String × α)
  | [], k, v => [(k, v)]
  | (k', v') :: t, k, v => if k' = k then (k, v) :: t else (k', v') :: setA t k v

def eraseA {α : Type} : List (String × α) → String → List (String × α)
  | [], _ => []
  | (k', v') :: t, k => if k' = k then t else (k', v') :: eraseA t k

def keysA {α : Type} (l : List (String × α)) : List String :=
  l.map Prod.fst

/-! ### Game engine (`GameService` in `GameController.js`)

Board cells hold the player *key* (`'player1'`/`'player2'`) or JS `null`;
the 3×3 array-of-arrays is modelled as a total function on `Fin 3 × Fin 3`.
Move coordinates are `Int`, mirroring the `Number.isInteger` guard. -/

inductive PlayerKey where
  | player1
  | player2
deriving DecidableEq, Repr

inductive GameStatus where
  | waiting
  | playing
  | finished
  | draw
  | abandoned
deriving DecidableEq, Repr

inductive MoveReason where
  | GAME_NOT_ACTIVE
  | NOT_YOUR_TURN
  | INVALID_COORDINATES
  | CELL_OCCUPIED
deriving DecidableEq, Repr

inductive ValidationResult where
  | valid
  | invalid (reason : MoveReason)
deriving DecidableEq, Repr

structure GPlayer where
  id : String
  name : String
  symbol : String
deriving DecidableEq, Repr

structure Players where
  player1 : GPlayer
  player2 : GPlayer
deriving DecidableEq, Repr

def Players.get (p : Players) : PlayerKey → GPlayer
  | PlayerKey.player1 => p.player1
  | PlayerKey.player2 => p.player2

structure Move where
  playerId : String
  playerKey : PlayerKey
  x : Int
  y : Int
  timestamp : Nat
  moveNumber : Nat
deriving DecidableEq, Repr

abbrev Board : Type := Fin 3 → Fin 3 → Option PlayerKey

structure GameState where
  id : String
  roomId : String
  board : Board
  players : Players
  currentPlayer : PlayerKey
  status : GameStatus
  winner : Option String
  moveHistory : List Move
  createdAt : Nat
  startedAt : Nat
  lastMoveAt : Nat
  finishedAt : Option Nat

namespace GameService

def BOARD_SIZE : Nat := 3

abbrev Pos : Type := Fin 3 × Fin 3

abbrev Combo : Type := Pos × Pos × Pos

def WINNING_COMBINATIONS : List Combo :=
  [ ((0, 0), (0, 1), (0, 2)),
    ((1, 0), (1, 1), (1, 2)),
    ((2, 0), (2, 1), (2, 2)),
    ((0, 0), (1, 0), (2, 0)),
    ((0, 1), (1, 1), (2, 1)),
    ((0, 2), (1, 2), (2, 2)),
    ((0, 0), (1, 1), (2, 2)),
    ((0, 2), (1, 1), (2, 0)) ]

def cellAt (board : Board) (p : Pos) : Option PlayerKey :=
  board p.1 p.2

def createEmptyBoard : Board := fun _ _ => none

/-- One iteration of the `checkWinner` loop body: `cell1 && cell1 === cell2
&& cell2 === cell3` yields `cell1`. -/
def lineWinner (board : Board) (c : Combo) : Option PlayerKey :=
  match cellAt board c.1 with
  | none => none
  | some v =>
    if cellAt board c.2.1 = some v ∧ cellAt board c.2.2 = cellAt board c.2.1 then
      some v
    else
      none

def checkWinnerAux (board : Board) : List Combo → Option PlayerKey
  | [] => none
  | c :: rest =>
    match lineWinner board c with
    | some v => some v
    | none => checkWinnerAux board rest

def checkWinner (board : Board) : Option PlayerKey :=
  checkWinnerAux board WINNING_COMBINATIONS

def getWinningCombinationAux (board : Board) : List Combo → Option Combo
  | [] => none
  | c :: rest =>
    match lineWinner board c with
    | some _ => some c
    | none => getWinningCombinationAux board rest

def getWinningCombination (board : Board) : Option Combo :=
  getWinningCombinationAux board WINNING_COMBINATIONS

def isValidCoordinate (x y : Int) : Bool :=
  decide (0 ≤ x) && decide (x < 3) && decide (0 ≤ y) && decide (y < 3)

/-- Reading `board[x][y]` under the bounds established by
`isValidCoordinate`; out of range the JS array access is never reached. -/
def getCellInt (board : Board) (x y : Int) : Option PlayerKey :=
  if h : 0 ≤ x ∧ x < 3 ∧ 0 ≤ y ∧ y < 3 then
    board ⟨x.toNat, by omega⟩ ⟨y.toNat, by omega⟩
  else
    none

def setCell (board : Board) (x y : Int) (v : PlayerKey) : Board :=
  fun i j => if ((i : Nat) : Int) = x ∧ ((j : Nat) : Int) = y then some v else board i j

def isBoardFull (board : Board) : Bool :=
  (List.finRange 3).all fun x => (List.finRange 3).all fun y => (board x y).isSome

def togglePlayer : PlayerKey → PlayerKey
  | PlayerKey.player1 => PlayerKey.player2
  | PlayerKey.player2 => PlayerKey.player1

def validateMove (gameState : GameState) (playerId : String) (x y : Int) :
    ValidationResult :=
  if gameState.status ≠ GameStatus.playing then
    ValidationResult.invalid MoveReason.GAME_NOT_ACTIVE
  else if playerId ≠ (gameState.players.get gameState.currentPlayer).id then
    ValidationResult.invalid MoveReason.NOT_YOUR_TURN
  else if ¬ (isValidCoordinate x y = true) then
    ValidationResult.invalid MoveReason.INVALID_COORDINATES
  else if getCellInt gameState.board x y ≠ none then
    ValidationResult.invalid MoveReason.CELL_OCCUPIED
  else
    ValidationResult.valid

inductive MoveResult where
  | failure (reason : MoveReason)
  | success (gameState : GameState)

def makeMove (gameState : GameState) (playerId : String) (x y : Int) (now : Nat) :
    MoveResult :=
  match validateMove gameState playerId x y with
  | ValidationResult.invalid r => MoveResult.failure r
  | ValidationResult.valid =>
    let currentPlayerKey := gameState.currentPlayer
    let board' := setCell gameState.board x y currentPlayerKey
    let history' := gameState.moveHistory ++
      [{ playerId := playerId, playerKey := currentPlayerKey, x := x, y := y,
         timestamp := now, moveNumber := gameState.moveHistory.length + 1 }]
    match checkWinner board' with
    | some w =>
      MoveResult.success
        { gameState with
            board := board', moveHistory := history', lastMoveAt := now,
            status := GameStatus.finished,
            winner := some (gameState.players.get w).id,
            finishedAt := some now }
    | none =>
      if isBoardFull board' then
        MoveResult.success
          { gameState with
              board := board', moveHistory := history', lastMoveAt := now,
              status := GameStatus.draw,
              finishedAt := some now }
      else
        MoveResult.success
          { gameState with
              board := board', moveHistory := history', lastMoveAt := now,
              currentPlayer := togglePlayer currentPlayerKey }

def MoveResult.resultState : MoveResult → Option GameState
  | MoveResult.failure _ => none
  | MoveResult.success s => some s

/-- A triple is completely occupied by `w`. -/
def lineAll (board : Board) (c : Combo) (w : PlayerKey) : Prop :=
  cellAt board c.1 = some w ∧ cellAt board c.2.1 = some w ∧ cellAt board c.2.2 = some w

instance (board : Board) (c : Combo) (w : PlayerKey) : Decidable (lineAll board c w) := by
  unfold lineAll
  infer_instance

end GameService

/-! ### `GameController.makeMove` (socket handler around the game service)

The in-memory `activeGames` map is an association list keyed by room id.
The database-rehydration path is out of scope: the handler is modelled for
games already cached, which is the path the claims describe. -/

inductive GameEvent where
  | moveRejected (reason : MoveReason)
  | gameStateUpdate (roomId : String)
  | gameNotFound
deriving DecidableEq, Repr

namespace GameController

def makeMove (activeGames : List (String × GameState)) (roomId playerId : String)
    (x y : Int) (now : Nat) : List (String × GameState) × GameEvent :=
  match getA activeGames roomId with
  | none => (activeGames, GameEvent.gameNotFound)
  | some gameState =>
    match GameService.validateMove gameState playerId x y with
    | ValidationResult.invalid r => (activeGames, GameEvent.moveRejected r)
    | ValidationResult.valid =>
      match GameService.makeMove gameState playerId x y now with
      | GameService.MoveResult.failure r => (activeGames, GameEvent.moveRejected r)
      | GameService.MoveResult.success gameState' =>
        (setA activeGames roomId gameState', GameEvent.gameStateUpdate roomId)

end GameController

namespace Validation

/-! ### Chat sanitizer (`sanitizeChatMessage` in `validation.js`)

The two regex replacements are modelled character-exactly:
`/<[^>]*>/g` removes each span from a `<` to the first following `>`
(a `<` with no later `>` cannot match);
`/<script\b[^<]*(?:(?!<\/script>)<[^<]*)*<\/script>/gi` removes each span
from a case-insensitive `<script` with a word boundary to the first
following case-insensitive `</script>`.  The recursions carry a fuel
argument equal to the input length, which strictly exceeds the number of
steps either scan can take, so the fuelled functions compute the full
replacement. -/

def removeTagsFuel : Nat → List Char → List Char
  | 0, l => l
  | _ + 1, [] => []
  | fuel + 1, c :: rest =>
    if c = '<' then
      match rest.dropWhile (fun d => d ≠ '>') with
      | [] => c :: rest
      | _ :: after => removeTagsFuel fuel after
    else c :: removeTagsFuel fuel rest

def removeTags (l : List Char) : List Char :=
  removeTagsFuel l.length l

def startsWithCI : List Char → List Char → Bool
  | [], _ => true
  | _ :: _, [] => false
  | p :: ps, c :: cs => (c.toLower = p.toLower) && startsWithCI ps cs

def isWordChar (c : Char) : Bool :=
  c.isAlphanum || c = '_'

def scriptBoundary : List Char → Bool
  | [] => true
  | d :: _ => ! isWordChar d

def findCloseScript : List Char → Option (List Char)
  | [] => none
  | c :: rest =>
    if startsWithCI (("</script>").toList) (c :: rest) then
      some ((c :: rest).drop 9)
    else
      findCloseScript rest

def removeScriptBlocksFuel : Nat → List Char → List Char
  | 0, l => l
  | _ + 1, [] => []
  | fuel + 1, c :: rest =>
    if startsWithCI (("<script").toList) (c :: rest) &&
        scriptBoundary ((c :: rest).drop 7) then
      match findCloseScript ((c :: rest).drop 7) with
      | some after => removeScriptBlocksFuel fuel after
      | none => c :: removeScriptBlocksFuel fuel rest
    else c :: removeScriptBlocksFuel fuel rest

def removeScriptBlocks (l : List Char) : List Char :=
  removeScriptBlocksFuel l.length l

def replAll (c : Char) (rep : List Char) : List Char → List Char
  | [] => []
  | d :: t => (if d = c then rep else [d]) ++ replAll c rep t

def escapeSpecialChars (l : List Char) : List Char :=
  replAll '/' (("&#x2F;").toList)
    (replAll '\'' (("&#x27;").toList)
      (replAll '"' (("&quot;").toList)
        (replAll '>' (("&gt;").toList)
          (replAll '<' (("&lt;").toList)
            (replAll '&' (("&amp;").toList) l)))))

/-- JS `String.prototype.trim`: strip whitespace from both ends. -/
def trimChars (l : List Char) : List Char :=
  ((l.dropWhile Char.isWhitespace).reverse.dropWhile Char.isWhitespace).reverse

def sanitizeChatMessage (message : String) : String :=
  let s1 := removeTags message.toList
  let s2 := removeScriptBlocks s1
  let s3 := escapeSpecialChars s2
  let s4 := if 200 < s3.length then s3.take 200 else s3
  String.mk (trimChars s4)

end Validation

/-! ### Socket rate limiter (`socketRateLimiter.js`)

Per-client state is the recorded event list plus bookkeeping fields.  JS
`now - e.timestamp < w` on possibly-future timestamps agrees with the
truncated `Nat` subtraction used here (both sides give `true`). -/

structure RLEvent where
  type : String
  timestamp : Nat
deriving DecidableEq, Repr

structure ClientData where
  events : List RLEvent
  lastSeen : Nat
  warnings : Nat
deriving DecidableEq, Repr

namespace SocketRateLimiter

/-- Lookup `this.limits[eventType] || this.limits.default`. -/
def minuteLimitFor (eventType : String) : Nat :=
  if eventType = "make-move" then 30
  else if eventType = "chat-message" then 20
  else if eventType = "join-room" then 10
  else if eventType = "create-room" then 5
  else if eventType = "leave-room" then 10
  else if eventType = "spectate-game" then 10
  else if eventType = "get-room-list" then 30
  else 60

/-- Lookup `this.burstLimits[eventType] || this.burstLimits.default`. -/
def burstLimitFor (eventType : String) : Nat :=
  if eventType = "make-move" then 10
  else if eventType = "chat-message" then 5
  else if eventType = "join-room" then 3
  else if eventType = "create-room" then 2
  else 20

def minuteKeys : List String :=
  ["make-move", "chat-message", "join-room", "create-room", "leave-room",
   "spectate-game", "get-room-list"]

def burstKeys : List String :=
  ["make-move", "chat-message", "join-room", "create-room"]

def checkLimit (clientData : ClientData) (eventType : String) (now : Nat) :
    Bool × ClientData :=
  let events := clientData.events.filter fun e => decide (now - e.timestamp < 60000)
  let minuteLimit := minuteLimitFor eventType
  let burstLimit := burstLimitFor eventType
  let eventsInMinute := (events.filter fun e => decide (e.type = eventType)).length
  let eventsInBurst :=
    (events.filter fun e =>
      decide (e.type = eventType) && decide (now - e.timestamp < 10000)).length
  if minuteLimit ≤ eventsInMinute then
    (false, { events := events, lastSeen := now, warnings := clientData.warnings + 1 })
  else if burstLimit ≤ eventsInBurst then
    (false, { events := events, lastSeen := now, warnings := clientData.warnings + 1 })
  else
    (true, { events := events ++ [{ type := eventType, timestamp := now }],
             lastSeen := now, warnings := clientData.warnings })

/-- Count of same-type events within the last `w` milliseconds, evaluated
directly on the stored event list. -/
def countInWindow (events : List RLEvent) (eventType : String) (now w : Nat) : Nat :=
  (events.filter fun e =>
    decide (e.type = eventType) && decide (now - e.timestamp < w)).length

end SocketRateLimiter

/-! ### Room controller (`RoomController` in `validation.js` bundle)

`activeRooms`, each room's `players` map, the reverse index `playerRooms`
and the mirrored `rooms` table of the database are association lists.
`bcrypt` is out of scope and modelled as an identity hash, so the stored
`password` is compared for equality.  Spectators and chat history do not
participate in any claim and are omitted.  Events record the broadcasts
the controller emits. -/

inductive RoomStatus where
  | waiting
  | playing
  | finished
deriving DecidableEq, Repr

structure RPlayer where
  id : String
  name : String
deriving DecidableEq, Repr

structure Room where
  id : String
  name : String
  isPrivate : Bool
  password : Option String
  maxPlayers : Nat
  currentPlayers : Nat
  status : RoomStatus
  createdBy : String
  createdAt : Nat
  players : List (String × RPlayer)
deriving DecidableEq, Repr

structure ServerState where
  activeRooms : List (String × Room)
  playerRooms : List (String × String)
  dbRooms : List (String × Room)
deriving DecidableEq, Repr

inductive RoomEvent where
  | roomCreated (roomId : String)
  | playerJoined (playerId roomId : String)
  | playerLeft (playerId roomId : String)
  | gameStarted (roomId : String)
  | roomErrorEvent (code : String)
deriving DecidableEq, Repr

namespace RoomController

def leaveRoom (st : ServerState) (playerId roomId : String) :
    ServerState × List RoomEvent :=
  match getA st.activeRooms roomId with
  | none => (st, [])
  | some room =>
    let players' := eraseA room.players playerId
    let room' := { room with players := players', currentPlayers := players'.length }
    if room'.currentPlayers = 0 then
      ({ activeRooms := eraseA st.activeRooms roomId,
         playerRooms := eraseA st.playerRooms playerId,
         dbRooms := eraseA st.dbRooms roomId },
       [RoomEvent.playerLeft playerId roomId])
    else
      ({ activeRooms := setA st.activeRooms roomId room',
         playerRooms := eraseA st.playerRooms playerId,
         dbRooms := setA st.dbRooms roomId room' },
       [RoomEvent.playerLeft playerId roomId])

def createRoom (st : ServerState) (playerId playerName roomId roomName : String)
    (private_ : Bool) (password : Option String) (maxPlayers : Nat) (now : Nat) :
    ServerState × List RoomEvent :=
  let room : Room :=
    { id := roomId, name := roomName, isPrivate := private_, password := password,
      maxPlayers := maxPlayers, currentPlayers := 1, status := RoomStatus.waiting,
      createdBy := playerId, createdAt := now,
      players := [(playerId, { id := playerId, name := playerName })] }
  ({ activeRooms := setA st.activeRooms roomId room,
     playerRooms := setA st.playerRooms playerId roomId,
     dbRooms := setA st.dbRooms roomId room },
   [RoomEvent.roomCreated roomId])

/-- Insertion step of `joinRoom`: add the player to the room's map, refresh
`currentPlayers`, then `checkGameStart` flips a waiting room with two
members to `playing`. -/
def joinInsert (st1 : ServerState) (playerId playerName roomId : String)
    (room1 : Room) : ServerState × List RoomEvent :=
  let players' := setA room1.players playerId { id := playerId, name := playerName }
  let room' := { room1 with players := players', currentPlayers := players'.length }
  let starts := room'.currentPlayers = 2 ∧ room'.status = RoomStatus.waiting
  let room2 := if starts then { room' with status := RoomStatus.playing } else room'
  ({ activeRooms := setA st1.activeRooms roomId room2,
     playerRooms := setA st1.playerRooms playerId roomId,
     dbRooms := setA st1.dbRooms roomId room2 },
   [RoomEvent.playerJoined playerId roomId] ++
     (if starts then [RoomEvent.gameStarted roomId] else []))

/-- Body of `joinRoom` after the room-full and password gates: leave any
prior room, insert the player, then `checkGameStart`. -/
def joinRoomProceed (st : ServerState) (playerId playerName roomId : String) :
    ServerState × List RoomEvent :=
  let pr :=
    match getA st.playerRooms playerId with
    | some currentRoom =>
      if currentRoom ≠ roomId then leaveRoom st playerId currentRoom else (st, [])
    | none => (st, [])
  let st1 := pr.1
  match getA st1.activeRooms roomId with
  | none => (st1, pr.2)
  | some room1 =>
    let r := joinInsert st1 playerId playerName roomId room1
    (r.1, pr.2 ++ r.2)

def joinRoom (st : ServerState) (playerId playerName roomId : String)
    (password : Option String) : ServerState × List RoomEvent :=
  match getA st.activeRooms roomId with
  | none => (st, [RoomEvent.roomErrorEvent ("ROOM_NOT_FOUND")])
  | some room =>
    if room.maxPlayers ≤ room.currentPlayers then
      (st, [RoomEvent.roomErrorEvent ("ROOM_FULL")])
    else if room.isPrivate ∧ room.password.isSome then
      match password with
      | none => (st, [RoomEvent.roomErrorEvent ("PASSWORD_REQUIRED")])
      | some p =>
        if room.password = some p then
          joinRoomProceed st playerId playerName roomId
        else
          (st, [RoomEvent.roomErrorEvent ("INVALID_PASSWORD")])
    else
      joinRoomProceed st playerId playerName roomId

def handleDisconnect (st : ServerState) (playerId : String) :
    ServerState × List RoomEvent :=
  match getA st.playerRooms playerId with
  | some roomId => leaveRoom st playerId roomId
  | none => (st, [])

def cleanupEmptyRooms (st : ServerState) (now : Nat) : ServerState :=
  let stale : String × Room → Bool := fun e =>
    decide (e.2.currentPlayers = 0) && decide (300000 < now - e.2.createdAt)
  let victims := (st.activeRooms.filter stale).map Prod.fst
  { activeRooms := st.activeRooms.filter fun e => ! stale e,
    playerRooms := st.playerRooms,
    dbRooms := st.dbRooms.filter fun e => ! victims.contains e.1 }

inductive Op where
  | create (playerId playerName roomId roomName : String) (private_ : Bool)
      (password : Option String) (maxPlayers : Nat) (now : Nat)
  | join (playerId playerName roomId : String) (password : Option String)
  | leave (playerId roomId : String)
  | disconnect (playerId : String)

def applyOp (st : ServerState) : Op → ServerState × List RoomEvent
  | Op.create pid pname rid rname priv pw maxP now =>
    createRoom st pid pname rid rname priv pw maxP now
  | Op.join pid pname rid pw => joinRoom st pid pname rid pw
  | Op.leave pid rid => leaveRoom st pid rid
  | Op.disconnect pid => handleDisconnect st pid

/-- Payload constraints enforced by the `create-room` schema before the
controller runs: `maxPlayers` is an integer in `[2, 10]`. -/
def ValidOp : Op → Prop
  | Op.create _ _ _ _ _ _ maxP _ => 2 ≤ maxP ∧ maxP ≤ 10
  | _ => True

def initialState : ServerState :=
  { activeRooms := [], playerRooms := [], dbRooms := [] }

inductive Reachable : ServerState → Prop where
  | init : Reachable initialState
  | step {st : ServerState} {op : Op} : Reachable st → ValidOp op →
      Reachable (applyOp st op).1

/-- Capacity invariant together with the bookkeeping facts needed to
maintain it: room keys are unique, each room's membership fits its
capacity, and the `currentPlayers` counter mirrors the membership size. -/
def CapInv (st : ServerState) : Prop :=
  (keysA st.activeRooms).Nodup ∧
  ∀ rid room, getA st.activeRooms rid = some room →
    room.players.length ≤ room.maxPlayers ∧
    room.currentPlayers = room.players.length

end RoomController

/-! ### Concrete states used by witnesses and counterexamples -/

def sampleBoardEmpty : Board := fun _ _ => none

def sampleWinBoard : Board :=
  fun i _ => if i = 0 then some PlayerKey.player1 else none

def samplePlayers : Players :=
  { player1 := { id := "a", name := "A", symbol := "X" },
    player2 := { id := "b", name := "B", symbol := "O" } }

def sampleState : GameState :=
  { id := "g1", roomId := "r1", board := sampleBoardEmpty,
    players := samplePlayers, currentPlayer := PlayerKey.player1,
    status := GameStatus.playing, winner := none, moveHistory := [],
    createdAt := 0, startedAt := 0, lastMoveAt := 0, finishedAt := none }

def sampleFinishedState : GameState :=
  { sampleState with status := GameStatus.finished, winner := some ("a") }

/-- Board whose first row is already a `player2` line: reachable only for
adversarially constructed states, used to probe `makeMove` on inputs where
validation still succeeds. -/
def c3ExBoard : Board :=
  fun i _ => if i = 0 then some PlayerKey.player2 else none

def c3ExState : GameState :=
  { sampleState with board := c3ExBoard }

def c6Room : Room :=
  { id := "R", name := "room", isPrivate := false, password := none,
    maxPlayers := 2, currentPlayers := 2, status := RoomStatus.waiting,
    createdBy := "p", createdAt := 0,
    players := [("p", { id := "p", name := "P" }),
                ("q", { id := "q", name := "Q" })] }

def c6State : ServerState :=
  { activeRooms := [("R", c6Room)],
    playerRooms := [("p", "R"), ("q", "R")],
    dbRooms := [("R", c6Room)] }

def c6WitRoom : Room :=
  { id := "R", name := "room", isPrivate := false, password := none,
    maxPlayers := 2, currentPlayers := 1, status := RoomStatus.waiting,
    createdBy := "q", createdAt := 0,
    players := [("q", { id := "q", name := "Q" })] }

def c6WitState : ServerState :=
  { activeRooms := [("R", c6WitRoom)],
    playerRooms := [("q", "R")],
    dbRooms := [("R", c6WitRoom)] }

def c8Op1 : RoomController.Op :=
  RoomController.Op.create "p1" "P1" "A" "roomA" false none 2 0

def c8Op2 : RoomController.Op :=
  RoomController.Op.join "p2" "P2" "A" none

def c8Op3 : RoomController.Op :=
  RoomController.Op.create "p1" "P1" "B" "roomB" false none 2 0

def c8Op4 : RoomController.Op :=
  RoomController.Op.leave "p2" "A"

def c8CexState : ServerState :=
  (RoomController.applyOp
    (RoomController.applyOp
      (RoomController.applyOp
        (RoomController.applyOp RoomController.initialState c8Op1).1
        c8Op2).1
      c8Op3).1
    c8Op4).1

def c8WitRoom : Room :=
  { id := "A", name := "roomA", isPrivate := false, password := none,
    maxPlayers := 2, currentPlayers := 1, status := RoomStatus.waiting,
    createdBy := "p1", createdAt := 0,
    players := [("p1", { id := "p1", name := "P1" })] }

def c9Room : Room :=
  { id := "R", name := "room", isPrivate := false, password := none,
    maxPlayers := 2, currentPlayers := 1, status := RoomStatus.waiting,
    createdBy := "p", createdAt := 0,
    players := [("p", { id := "p", name := "P" })] }

def c9State : ServerState :=
  { activeRooms := [("R", c9Room)],
    playerRooms := [("p", "R")],
    dbRooms := [("R", c9Room)] }

def c9EmptyRoom : Room :=
  { id := "R", name := "room", isPrivate := false, password := none,
    maxPlayers := 2, currentPlayers := 0, status := RoomStatus.waiting,
    createdBy := "p", createdAt := 0, players := [] }

def c9EmptyState : ServerState :=
  { activeRooms := [("R", c9EmptyRoom)], playerRooms := [],
    dbRooms := [("R", c9EmptyRoom)] }

/-! ### Lemmas and claim theorems -/

theorem getA_setA_self {α : Type} (l : List (String × α)) (k : String) (v : α) :
    getA (setA l k v) k = some v := by
  induction l with
  | nil => simp [setA, getA]
  | cons h t ih =>
    obtain ⟨k', v'⟩ := h
    by_cases hk : k' = k
    · simp [setA, hk, getA]
    · simp [setA, hk, getA, ih]

theorem getA_setA_ne {α : Type} (l : List (String × α)) (k k' : String) (v : α)
    (h : k ≠ k') : getA (setA l k v) k' = getA l k' := by
  induction l with
  | nil => simp [setA, getA, h]
  | cons hd t ih =>
    obtain ⟨k₀, v₀⟩ := hd
    by_cases hk : k₀ = k
    · subst hk
      simp [setA, getA, h]
    · simp [setA, hk, getA, ih]

theorem getA_eraseA_ne {α : Type} (l : List (String × α)) (k k' : String)
    (h : k ≠ k') : getA (eraseA l k) k' = getA l k' := by
  induction l with
  | nil => simp [eraseA]
  | cons hd t ih =>
    obtain ⟨k₀, v₀⟩ := hd
    by_cases hk : k₀ = k
    · subst hk
      simp [eraseA, getA, h]
    · simp [eraseA, hk, getA, ih]

theorem getA_eq_none_iff {α : Type} (l : List (String × α)) (k : String) :
    getA l k = none ↔ k ∉ keysA l := by
  induction l with
  | nil => simp [getA, keysA]
  | cons hd t ih =>
    obtain ⟨k₀, v₀⟩ := hd
    by_cases hk : k₀ = k
    · subst hk
      simp [getA, keysA]
    · simp [getA, hk, keysA, Ne.symm hk] at *
      exact ih

theorem getA_eraseA_self {α : Type} (l : List (String × α)) (k : String)
    (hnd : (keysA l).Nodup) : getA (eraseA l k) k = none := by
  induction l with
  | nil => simp [eraseA, getA]
  | cons hd t ih =>
    obtain ⟨k₀, v₀⟩ := hd
    simp only [keysA, List.map_cons, List.nodup_cons] at hnd
    by_cases hk : k₀ = k
    · subst hk
      simp only [eraseA, if_pos rfl]
      exact (getA_eq_none_iff t k₀).2 hnd.1
    · simp [eraseA, hk, getA, ih hnd.2]

theorem keysA_setA {α : Type} (l : List (String × α)) (k : String) (v : α) :
    keysA (setA l k v) = if k ∈ keysA l then keysA l else keysA l ++ [k] := by
  induction l with
  | nil => simp [setA, keysA]
  | cons hd t ih =>
    obtain ⟨k₀, v₀⟩ := hd
    simp only [keysA, List.map_cons] at *
    by_cases hk : k₀ = k
    · subst hk
      simp [setA]
    · simp only [setA, if_neg hk, List.map_cons, ih]
      by_cases hm : k ∈ List.map Prod.fst t
      · simp [hm, Ne.symm hk]
      · simp [hm, Ne.symm hk]

theorem nodup_keysA_setA {α : Type} (l : List (String × α)) (k : String) (v : α)
    (hnd : (keysA l).Nodup) : (keysA (setA l k v)).Nodup := by
  rw [keysA_setA]
  by_cases hm : k ∈ keysA l
  · simpa [hm] using hnd
  · simp only [hm, if_false]
    simpa [List.nodup_append] using ⟨hnd, hm⟩

theorem keysA_eraseA_sublist {α : Type} (l : List (String × α)) (k : String) :
    (keysA (eraseA l k)).Sublist (keysA l) := by
  induction l with
  | nil => simp [eraseA]
  | cons hd t ih =>
    obtain ⟨k₀, v₀⟩ := hd
    by_cases hk : k₀ = k
    · simp only [eraseA, if_pos hk, keysA, List.map_cons]
      exact (List.sublist_cons_self _ _)
    · simp only [eraseA, if_neg hk, keysA, List.map_cons]
      exact List.Sublist.cons₂ _ ih

theorem nodup_keysA_eraseA {α : Type} (l : List (String × α)) (k : String)
    (hnd : (keysA l).Nodup) : (keysA (eraseA l k)).Nodup :=
  (keysA_eraseA_sublist l k).nodup hnd

theorem length_setA {α : Type} (l : List (String × α)) (k : String) (v : α) :
    (setA l k v).length = if (getA l k).isSome then l.length else l.length + 1 := by
  induction l with
  | nil => simp [setA, getA]
  | cons hd t ih =>
    obtain ⟨k₀, v₀⟩ := hd
    by_cases hk : k₀ = k
    · simp [setA, hk, getA]
    · simp only [setA, if_neg hk, getA, List.length_cons, ih]
      by_cases hm : (getA t k).isSome
      · simp [hm, hk]
      · simp [hm, hk]

theorem length_eraseA_le {α : Type} (l : List (String × α)) (k : String) :
    (eraseA l k).length ≤ l.length := by
  induction l with
  | nil => simp [eraseA]
  | cons hd t ih =>
    obtain ⟨k₀, v₀⟩ := hd
    by_cases hk : k₀ = k
    · simp [eraseA, hk]
    · simp only [eraseA, if_neg hk, List.length_cons]
      omega

theorem eraseA_of_getA_none {α : Type} (l : List (String × α)) (k : String)
    (h : getA l k = none) : eraseA l k = l := by
  induction l with
  | nil => simp [eraseA]
  | cons hd t ih =>
    obtain ⟨k₀, v₀⟩ := hd
    by_cases hk : k₀ = k
    · simp [getA, hk] at h
    · simp only [getA, if_neg hk] at h
      simp [eraseA, hk, ih h]

theorem getA_filter_of_none {α : Type} (l : List (String × α)) (k : String)
    (p : String × α → Bool) (h : getA l k = none) : getA (l.filter p) k = none := by
  induction l with
  | nil => simp [getA]
  | cons hd t ih =>
    obtain ⟨k₀, v₀⟩ := hd
    by_cases hk : k₀ = k
    · simp [getA, hk] at h
    · simp only [getA, if_neg hk] at h
      by_cases hp : p (k₀, v₀)
      · simp [List.filter_cons, hp, getA, hk, ih h]
      · simp [List.filter_cons, hp, ih h]

theorem getA_filter_eq_none {α : Type} (l : List (String × α)) (k : String) (v : α)
    (p : String × α → Bool) (hnd : (keysA l).Nodup)
    (h : getA l k = some v) (hp : p (k, v) = false) :
    getA (l.filter p) k = none := by
  induction l with
  | nil => simp [getA] at h
  | cons hd t ih =>
    obtain ⟨k₀, v₀⟩ := hd
    simp only [keysA, List.map_cons, List.nodup_cons] at hnd
    by_cases hk : k₀ = k
    · subst hk
      simp [getA] at h
      rw [show v₀ = v from h] at *
      simp only [List.filter_cons, hp, Bool.false_eq_true, if_false]
      exact getA_filter_of_none t k₀ p ((getA_eq_none_iff t k₀).2 hnd.1)
    · simp only [getA, if_neg hk] at h
      by_cases hq : p (k₀, v₀)
      · simp [List.filter_cons, hq, getA, hk, ih hnd.2 h]
      · simp [List.filter_cons, hq, ih hnd.2 h]

namespace GameService

theorem lineWinner_eq_some_iff (board : Board) (c : Combo) (w : PlayerKey) :
    lineWinner board c = some w ↔ lineAll board c w := by
  unfold lineWinner lineAll
  cases h1 : cellAt board c.1 with
  | none => simp
  | some v =>
    dsimp only
    split_ifs with h2
    · simp only [Option.some.injEq]
      constructor
      · rintro rfl
        exact ⟨rfl, h2.1, h2.2.trans h2.1⟩
      · rintro ⟨hvw, _, _⟩
        exact hvw
    · constructor
      · rintro ⟨⟩
      · rintro ⟨hvw, hb, hc⟩
        rw [Option.some.injEq] at hvw
        subst hvw
        exact absurd ⟨hb, hc.trans hb.symm⟩ h2

theorem checkWinnerAux_eq_some (board : Board) (cs : List Combo) (w : PlayerKey)
    (h : checkWinnerAux board cs = some w) :
    ∃ c ∈ cs, lineWinner board c = some w := by
  induction cs with
  | nil => simp [checkWinnerAux] at h
  | cons c rest ih =>
    simp only [checkWinnerAux] at h
    cases hc : lineWinner board c with
    | some v =>
      rw [hc] at h
      exact ⟨c, List.mem_cons_self c rest, hc.trans h⟩
    | none =>
      rw [hc] at h
      obtain ⟨c', hc', hw⟩ := ih h
      exact ⟨c', List.mem_cons_of_mem _ hc', hw⟩

theorem checkWinnerAux_eq_none_iff (board : Board) (cs : List Combo) :
    checkWinnerAux board cs = none ↔ ∀ c ∈ cs, lineWinner board c = none := by
  induction cs with
  | nil => simp [checkWinnerAux]
  | cons c rest ih =>
    simp only [checkWinnerAux]
    cases hc : lineWinner board c with
    | some v => simp [hc]
    | none => simp [hc, ih]

theorem checkWinnerAux_isSome_of_line (board : Board) (cs : List Combo) (c : Combo)
    (w : PlayerKey) (hc : c ∈ cs) (hl : lineAll board c w) :
    (checkWinnerAux board cs).isSome := by
  cases h : checkWinnerAux board cs with
  | some v => simp
  | none =>
    have := (checkWinnerAux_eq_none_iff board cs).1 h c hc
    rw [(lineWinner_eq_some_iff board c w).2 hl] at this
    exact absurd this (by simp)

/-- `checkWinner` and `getWinningCombination` scan the same combination list
and agree on the first match. -/
theorem winnerAux_parallel (board : Board) (cs : List Combo) :
    ((getWinningCombinationAux board cs).isSome = (checkWinnerAux board cs).isSome) ∧
    ∀ c w, getWinningCombinationAux board cs = some c →
      checkWinnerAux board cs = some w → lineWinner board c = some w := by
  induction cs with
  | nil => simp [getWinningCombinationAux, checkWinnerAux]
  | cons c₀ rest ih =>
    simp only [getWinningCombinationAux, checkWinnerAux]
    cases hc : lineWinner board c₀ with
    | some v =>
      refine ⟨rfl, ?_⟩
      intro c w hc' hw'
      rw [Option.some.injEq] at hc' hw'
      subst hc'
      subst hw'
      exact hc
    | none => exact ih

theorem validateMove_eq_valid_iff (s : GameState) (pid : String) (x y : Int) :
    validateMove s pid x y = ValidationResult.valid ↔
      (s.status = GameStatus.playing ∧ pid = (s.players.get s.currentPlayer).id ∧
       0 ≤ x ∧ x ≤ 2 ∧ 0 ≤ y ∧ y ≤ 2 ∧ getCellInt s.board x y = none) := by
  have hco : isValidCoordinate x y = true ↔ (0 ≤ x ∧ x ≤ 2 ∧ 0 ≤ y ∧ y ≤ 2) := by
    simp only [isValidCoordinate, Bool.and_eq_true, decide_eq_true_eq]
    omega
  constructor
  · intro h
    unfold validateMove at h
    by_cases h1 : s.status ≠ GameStatus.playing
    · rw [if_pos h1] at h
      exact absurd h (by simp)
    rw [if_neg h1] at h
    by_cases h2 : pid ≠ (s.players.get s.currentPlayer).id
    · rw [if_pos h2] at h
      exact absurd h (by simp)
    rw [if_neg h2] at h
    by_cases h3 : ¬ (isValidCoordinate x y = true)
    · rw [if_pos h3] at h
      exact absurd h (by simp)
    rw [if_neg h3] at h
    by_cases h4 : getCellInt s.board x y ≠ none
    · rw [if_pos h4] at h
      exact absurd h (by simp)
    push_neg at h1 h2 h3 h4
    rw [hco] at h3
    exact ⟨h1, h2, h3.1, h3.2.1, h3.2.2.1, h3.2.2.2, h4⟩
  · rintro ⟨h1, h2, hx0, hx2, hy0, hy2, h4⟩
    unfold validateMove
    rw [if_neg (by simp [h1]), if_neg (by simp [h2]),
      if_neg (not_not.mpr (hco.mpr ⟨hx0, hx2, hy0, hy2⟩)),
      if_neg (by simp [h4])]

theorem cellAt_setCell (board : Board) (x y : Int) (v : PlayerKey) (p : Pos) :
    cellAt (setCell board x y v) p =
      if ((p.1 : Nat) : Int) = x ∧ ((p.2 : Nat) : Int) = y then some v
      else cellAt board p := by
  rfl

/-- Setting one cell on a board without a winning line can only create lines
owned by the player just placed. -/
theorem checkWinner_setCell (board : Board) (x y : Int) (v : PlayerKey)
    (hb : checkWinner board = none) (w : PlayerKey)
    (hw : checkWinner (setCell board x y v) = some w) : w = v := by
  obtain ⟨c, hc, hlw⟩ := checkWinnerAux_eq_some _ _ _ hw
  have hall := (lineWinner_eq_some_iff _ c w).1 hlw
  have hnone := (checkWinnerAux_eq_none_iff board WINNING_COMBINATIONS).1 hb c hc
  obtain ⟨h1, h2, h3⟩ := hall
  rw [cellAt_setCell] at h1 h2 h3
  by_cases e1 : ((c.1.1 : Nat) : Int) = x ∧ ((c.1.2 : Nat) : Int) = y
  · rw [if_pos e1, Option.some.injEq] at h1
    exact h1.symm
  · rw [if_neg e1] at h1
    by_cases e2 : ((c.2.1.1 : Nat) : Int) = x ∧ ((c.2.1.2 : Nat) : Int) = y
    · rw [if_pos e2, Option.some.injEq] at h2
      exact h2.symm
    · rw [if_neg e2] at h2
      by_cases e3 : ((c.2.2.1 : Nat) : Int) = x ∧ ((c.2.2.2 : Nat) : Int) = y
      · rw [if_pos e3, Option.some.injEq] at h3
        exact h3.symm
      · rw [if_neg e3] at h3
        have : lineWinner board c = some w :=
          (lineWinner_eq_some_iff board c w).2 ⟨h1, h2, h3⟩
        rw [hnone] at this
        exact absurd this (by simp)

theorem getCellInt_setCell_self (board : Board) (x y : Int) (v : PlayerKey)
    (hx0 : 0 ≤ x) (hx2 : x ≤ 2) (hy0 : 0 ≤ y) (hy2 : y ≤ 2) :
    getCellInt (setCell board x y v) x y = some v := by
  unfold getCellInt setCell
  rw [dif_pos ⟨hx0, by omega, hy0, by omega⟩]
  simp [Int.toNat_of_nonneg hx0, Int.toNat_of_nonneg hy0]

end GameService

namespace SocketRateLimiter

theorem count_minute_eq (l : List RLEvent) (t : String) (now : Nat) :
    ((l.filter fun e => decide (now - e.timestamp < 60000)).filter
        fun e => decide (e.type = t)).length =
      countInWindow l t now 60000 := by
  unfold countInWindow
  rw [List.filter_filter]

theorem count_burst_eq (l : List RLEvent) (t : String) (now : Nat) :
    ((l.filter fun e => decide (now - e.timestamp < 60000)).filter
        fun e =>
          decide (e.type = t) && decide (now - e.timestamp < 10000)).length =
      countInWindow l t now 10000 := by
  unfold countInWindow
  rw [List.filter_filter]
  apply congrArg List.length
  apply List.filter_congr
  intro a _
  by_cases h1 : a.type = t <;> by_cases h2 : now - a.timestamp < 10000
  · have h3 : now - a.timestamp < 60000 := by omega
    simp [h1, h2, h3]
  · by_cases h3 : now - a.timestamp < 60000 <;> simp [h1, h2, h3]
  · by_cases h3 : now - a.timestamp < 60000 <;> simp [h1, h2, h3]
  · by_cases h3 : now - a.timestamp < 60000 <;> simp [h1, h2, h3]

end SocketRateLimiter

namespace RoomController

theorem capInv_initial : CapInv initialState := by
  constructor
  · simp [initialState, keysA]
  · intro rid room h
    simp [initialState, getA] at h

theorem leaveRoom_preserves_capInv (st : ServerState) (pid rid : String)
    (hInv : CapInv st) : CapInv (leaveRoom st pid rid).1 := by
  obtain ⟨hnd, hcap⟩ := hInv
  unfold leaveRoom
  cases hg : getA st.activeRooms rid with
  | none => exact ⟨hnd, hcap⟩
  | some room =>
    dsimp only
    split_ifs with hz
    · refine ⟨nodup_keysA_eraseA _ _ hnd, ?_⟩
      intro rid' room' h'
      by_cases he : rid = rid'
      · subst he
        rw [getA_eraseA_self _ _ hnd] at h'
        exact absurd h' (by simp)
      · rw [getA_eraseA_ne _ _ _ he] at h'
        exact hcap rid' room' h'
    · refine ⟨nodup_keysA_setA _ _ _ hnd, ?_⟩
      intro rid' room' h'
      by_cases he : rid = rid'
      · subst he
        rw [getA_setA_self] at h'
        rw [Option.some.injEq] at h'
        subst h'
        refine ⟨?_, rfl⟩
        calc (eraseA room.players pid).length
            ≤ room.players.length := length_eraseA_le _ _
          _ ≤ room.maxPlayers := (hcap rid room hg).1
      · rw [getA_setA_ne _ _ _ _ he] at h'
        exact hcap rid' room' h'

theorem createRoom_preserves_capInv (st : ServerState)
    (pid pname rid rname : String) (priv : Bool) (pw : Option String)
    (maxP now : Nat) (hmax : 1 ≤ maxP) (hInv : CapInv st) :
    CapInv (createRoom st pid pname rid rname priv pw maxP now).1 := by
  obtain ⟨hnd, hcap⟩ := hInv
  unfold createRoom
  refine ⟨nodup_keysA_setA _ _ _ hnd, ?_⟩
  intro rid' room' h'
  by_cases he : rid = rid'
  · subst he
    rw [getA_setA_self] at h'
    rw [Option.some.injEq] at h'
    subst h'
    exact ⟨by simpa using hmax, rfl⟩
  · rw [getA_setA_ne _ _ _ _ he] at h'
    exact hcap rid' room' h'

theorem leaveRoom_getA_other (st : ServerState) (pid r rid : String)
    (h : r ≠ rid) :
    getA (leaveRoom st pid r).1.activeRooms rid = getA st.activeRooms rid := by
  unfold leaveRoom
  cases hg : getA st.activeRooms r with
  | none => rfl
  | some room =>
    dsimp only
    split_ifs with hz
    · exact getA_eraseA_ne _ _ _ h
    · exact getA_setA_ne _ _ _ _ h

theorem joinInsert_preserves_capInv (st1 : ServerState)
    (pid pname rid : String) (room1 : Room) (hInv1 : CapInv st1)
    (hg1 : getA st1.activeRooms rid = some room1)
    (hlt1 : room1.currentPlayers < room1.maxPlayers) :
    CapInv (joinInsert st1 pid pname rid room1).1 := by
  obtain ⟨hnd1, hcap1⟩ := hInv1
  have hlen : (setA room1.players pid { id := pid, name := pname }).length ≤
      room1.maxPlayers := by
    rw [length_setA]
    have hcnt := (hcap1 rid room1 hg1).2
    by_cases hs : (getA room1.players pid).isSome
    · rw [if_pos hs]
      exact (hcap1 rid room1 hg1).1
    · rw [if_neg hs]
      omega
  unfold joinInsert
  refine ⟨nodup_keysA_setA _ _ _ hnd1, ?_⟩
  intro rid' room' h'
  by_cases he : rid = rid'
  · subst he
    rw [getA_setA_self] at h'
    rw [Option.some.injEq] at h'
    subst h'
    split_ifs with hstart
    · exact ⟨hlen, rfl⟩
    · exact ⟨hlen, rfl⟩
  · rw [getA_setA_ne _ _ _ _ he] at h'
    exact hcap1 rid' room' h'

theorem joinRoomProceed_preserves_capInv (st : ServerState)
    (pid pname rid : String) (room : Room) (hInv : CapInv st)
    (hg : getA st.activeRooms rid = some room)
    (hlt : room.currentPlayers < room.maxPlayers) :
    CapInv (joinRoomProceed st pid pname rid).1 := by
  unfold joinRoomProceed
  cases hpr : getA st.playerRooms pid with
  | none =>
    dsimp only
    rw [hg]
    exact joinInsert_preserves_capInv st pid pname rid room ⟨hInv.1, hInv.2⟩ hg hlt
  | some currentRoom =>
    dsimp only
    by_cases hcur : currentRoom ≠ rid
    · rw [if_pos hcur]
      have hg1 : getA (leaveRoom st pid currentRoom).1.activeRooms rid =
          some room := by
        rw [leaveRoom_getA_other st pid currentRoom rid hcur]
        exact hg
      have hInv1 := leaveRoom_preserves_capInv st pid currentRoom hInv
      rw [hg1]
      exact joinInsert_preserves_capInv _ pid pname rid room hInv1 hg1 hlt
    · rw [if_neg hcur]
      dsimp only
      rw [hg]
      exact joinInsert_preserves_capInv st pid pname rid room ⟨hInv.1, hInv.2⟩ hg hlt

theorem joinRoom_preserves_capInv (st : ServerState)
    (pid pname rid : String) (pw : Option String) (hInv : CapInv st) :
    CapInv (joinRoom st pid pname rid pw).1 := by
  unfold joinRoom
  cases hg : getA st.activeRooms rid with
  | none => exact hInv
  | some room =>
    dsimp only
    by_cases hfull : room.maxPlayers ≤ room.currentPlayers
    · rw [if_pos hfull]
      exact hInv
    · rw [if_neg hfull]
      have hlt : room.currentPlayers < room.maxPlayers := by omega
      by_cases hpriv : room.isPrivate = true ∧ room.password.isSome = true
      · rw [if_pos hpriv]
        cases pw with
        | none => exact hInv
        | some p =>
          dsimp only
          by_cases hpw : room.password = some p
          · rw [if_pos hpw]
            exact joinRoomProceed_preserves_capInv st pid pname rid room hInv hg hlt
          · rw [if_neg hpw]
            exact hInv
      · rw [if_neg hpriv]
        exact joinRoomProceed_preserves_capInv st pid pname rid room hInv hg hlt

theorem handleDisconnect_preserves_capInv (st : ServerState) (pid : String)
    (hInv : CapInv st) : CapInv (handleDisconnect st pid).1 := by
  unfold handleDisconnect
  cases hpr : getA st.playerRooms pid with
  | none => exact hInv
  | some rid => exact leaveRoom_preserves_capInv st pid rid hInv

theorem applyOp_preserves_capInv (st : ServerState) (op : Op)
    (hop : ValidOp op) (hInv : CapInv st) : CapInv (applyOp st op).1 := by
  cases op with
  | create pid pname rid rname priv pw maxP now =>
    exact createRoom_preserves_capInv st pid pname rid rname priv pw maxP now
      (by exact le_trans (by omega) hop.1) hInv
  | join pid pname rid pw => exact joinRoom_preserves_capInv st pid pname rid pw hInv
  | leave pid rid => exact leaveRoom_preserves_capInv st pid rid hInv
  | disconnect pid => exact handleDisconnect_preserves_capInv st pid hInv

theorem reachable_capInv (st : ServerState) (h : Reachable st) : CapInv st := by
  induction h with
  | init => exact capInv_initial
  | step hr hop ih => exact applyOp_preserves_capInv _ _ hop ih

end RoomController

namespace GameService

theorem exists_line_of_checkWinner_some (b : Board) (w : PlayerKey)
    (h : checkWinner b = some w) :
    ∃ c ∈ WINNING_COMBINATIONS, lineAll b c w := by
  obtain ⟨c, hc, hl⟩ := checkWinnerAux_eq_some b WINNING_COMBINATIONS w h
  exact ⟨c, hc, (lineWinner_eq_some_iff b c w).1 hl⟩

theorem no_line_of_checkWinner_none (b : Board)
    (h : checkWinner b = none) :
    ∀ c ∈ WINNING_COMBINATIONS, ∀ w, ¬ lineAll b c w := by
  intro c hc w hl
  have := (checkWinnerAux_eq_none_iff b WINNING_COMBINATIONS).1 h c hc
  rw [(lineWinner_eq_some_iff b c w).2 hl] at this
  exact absurd this (by simp)

theorem validateMove_gna_iff (s : GameState) (pid : String) (x y : Int) :
    validateMove s pid x y = ValidationResult.invalid MoveReason.GAME_NOT_ACTIVE ↔
      s.status ≠ GameStatus.playing := by
  unfold validateMove
  by_cases h1 : s.status ≠ GameStatus.playing
  · rw [if_pos h1]
    simp [h1]
  · rw [if_neg h1]
    split_ifs with h2 h3 h4 <;> simp [h1]

theorem validateMove_nyt_iff (s : GameState) (pid : String) (x y : Int) :
    validateMove s pid x y = ValidationResult.invalid MoveReason.NOT_YOUR_TURN ↔
      (s.status = GameStatus.playing ∧
       pid ≠ (s.players.get s.currentPlayer).id) := by
  unfold validateMove
  by_cases h1 : s.status ≠ GameStatus.playing
  · rw [if_pos h1]
    simp [h1]
  · rw [if_neg h1]
    push_neg at h1
    by_cases h2 : pid ≠ (s.players.get s.currentPlayer).id
    · rw [if_pos h2]
      simp [h1, h2]
    · rw [if_neg h2]
      push_neg at h2
      split_ifs with h3 h4 <;> simp [h1, h2]

theorem validateMove_ic_iff (s : GameState) (pid : String) (x y : Int) :
    validateMove s pid x y =
        ValidationResult.invalid MoveReason.INVALID_COORDINATES ↔
      (s.status = GameStatus.playing ∧
       pid = (s.players.get s.currentPlayer).id ∧
       ¬ (0 ≤ x ∧ x ≤ 2 ∧ 0 ≤ y ∧ y ≤ 2)) := by
  have hco : isValidCoordinate x y = true ↔ (0 ≤ x ∧ x ≤ 2 ∧ 0 ≤ y ∧ y ≤ 2) := by
    simp only [isValidCoordinate, Bool.and_eq_true, decide_eq_true_eq]
    omega
  unfold validateMove
  by_cases h1 : s.status ≠ GameStatus.playing
  · rw [if_pos h1]
    simp [h1]
  · rw [if_neg h1]
    push_neg at h1
    by_cases h2 : pid ≠ (s.players.get s.currentPlayer).id
    · rw [if_pos h2]
      simp [h1, h2]
    · rw [if_neg h2]
      push_neg at h2
      by_cases h3 : ¬ (isValidCoordinate x y = true)
      · rw [if_pos h3]
        rw [hco] at h3
        simp [h1, h2, h3]
      · rw [if_neg h3]
        push_neg at h3
        rw [hco] at h3
        split_ifs with h4 <;> simp [h1, h2, h3]

theorem validateMove_co_iff (s : GameState) (pid : String) (x y : Int) :
    validateMove s pid x y = ValidationResult.invalid MoveReason.CELL_OCCUPIED ↔
      (s.status = GameStatus.playing ∧
       pid = (s.players.get s.currentPlayer).id ∧
       (0 ≤ x ∧ x ≤ 2 ∧ 0 ≤ y ∧ y ≤ 2) ∧
       getCellInt s.board x y ≠ none) := by
  have hco : isValidCoordinate x y = true ↔ (0 ≤ x ∧ x ≤ 2 ∧ 0 ≤ y ∧ y ≤ 2) := by
    simp only [isValidCoordinate, Bool.and_eq_true, decide_eq_true_eq]
    omega
  unfold validateMove
  by_cases h1 : s.status ≠ GameStatus.playing
  · rw [if_pos h1]
    simp [h1]
  · rw [if_neg h1]
    push_neg at h1
    by_cases h2 : pid ≠ (s.players.get s.currentPlayer).id
    · rw [if_pos h2]
      simp [h1, h2]
    · rw [if_neg h2]
      push_neg at h2
      by_cases h3 : ¬ (isValidCoordinate x y = true)
      · rw [if_pos h3]
        rw [hco] at h3
        simp [h1, h2, h3]
      · rw [if_neg h3]
        push_neg at h3
        rw [hco] at h3
        by_cases h4 : getCellInt s.board x y ≠ none
        · rw [if_pos h4]
          simp [h1, h2, h3, h4]
        · rw [if_neg h4]
          push_neg at h4
          simp [h1, h2, h3, h4]

end GameService

/-- C1: the check `validateMove` accepts a move exactly when the game is `playing`,
the mover is the current player, both coordinates are integers in `[0,2]`
and the addressed cell is empty; each failure mode reports the reason of
the first failing check (`GAME_NOT_ACTIVE`, then `NOT_YOUR_TURN`, then
`INVALID_COORDINATES`, then `CELL_OCCUPIED`).  The function is pure: it
only returns a verdict and takes no part of the state apart. -/
theorem c1_validateMove_accepts_iff (s : GameState) (pid : String) (x y : Int) :
    (GameService.validateMove s pid x y = ValidationResult.valid ↔
      (s.status = GameStatus.playing ∧
       pid = (s.players.get s.currentPlayer).id ∧
       0 ≤ x ∧ x ≤ 2 ∧ 0 ≤ y ∧ y ≤ 2 ∧
       GameService.getCellInt s.board x y = none)) ∧
    (GameService.validateMove s pid x y =
        ValidationResult.invalid MoveReason.GAME_NOT_ACTIVE ↔
      s.status ≠ GameStatus.playing) ∧
    (GameService.validateMove s pid x y =
        ValidationResult.invalid MoveReason.NOT_YOUR_TURN ↔
      (s.status = GameStatus.playing ∧
       pid ≠ (s.players.get s.currentPlayer).id)) ∧
    (GameService.validateMove s pid x y =
        ValidationResult.invalid MoveReason.INVALID_COORDINATES ↔
      (s.status = GameStatus.playing ∧
       pid = (s.players.get s.currentPlayer).id ∧
       ¬ (0 ≤ x ∧ x ≤ 2 ∧ 0 ≤ y ∧ y ≤ 2))) ∧
    (GameService.validateMove s pid x y =
        ValidationResult.invalid MoveReason.CELL_OCCUPIED ↔
      (s.status = GameStatus.playing ∧
       pid = (s.players.get s.currentPlayer).id ∧
       (0 ≤ x ∧ x ≤ 2 ∧ 0 ≤ y ∧ y ≤ 2) ∧
       GameService.getCellInt s.board x y ≠ none)) :=
  ⟨GameService.validateMove_eq_valid_iff s pid x y,
   GameService.validateMove_gna_iff s pid x y,
   GameService.validateMove_nyt_iff s pid x y,
   GameService.validateMove_ic_iff s pid x y,
   GameService.validateMove_co_iff s pid x y⟩

/-- Witness for C1 at a fresh game: the current player's move on the empty
cell `(0,0)` is accepted and the other player's identical move is rejected
as `NOT_YOUR_TURN`. -/
theorem c1_witness :
    GameService.validateMove sampleState ("a") 0 0 = ValidationResult.valid ∧
    GameService.validateMove sampleState ("b") 0 0 =
      ValidationResult.invalid MoveReason.NOT_YOUR_TURN :=
  ⟨(c1_validateMove_accepts_iff sampleState "a" 0 0).1.mpr
      ⟨rfl, rfl, by omega, by omega, by omega, by omega, by decide⟩,
   (c1_validateMove_accepts_iff sampleState "b" 0 0).2.2.1.mpr
      ⟨rfl, by decide⟩⟩

/-- C2: the scan `checkWinner` reports a player key exactly when one of the eight
fixed triples is completely occupied by one player, and the reported key
occupies such a triple. -/
theorem c2_checkWinner_characterization (b : Board) :
    ((GameService.checkWinner b).isSome ↔
      ∃ c ∈ GameService.WINNING_COMBINATIONS, ∃ w, GameService.lineAll b c w) ∧
    (∀ w, GameService.checkWinner b = some w →
      ∃ c ∈ GameService.WINNING_COMBINATIONS, GameService.lineAll b c w) := by
  constructor
  · constructor
    · intro h
      cases hw : GameService.checkWinner b with
      | none => rw [hw] at h; exact absurd h (by simp)
      | some w =>
        obtain ⟨c, hc, hl⟩ := GameService.exists_line_of_checkWinner_some b w hw
        exact ⟨c, hc, w, hl⟩
    · rintro ⟨c, hc, w, hl⟩
      exact GameService.checkWinnerAux_isSome_of_line b _ c w hc hl
  · intro w hw
    exact GameService.exists_line_of_checkWinner_some b w hw

/-- Witness for C2 at a board whose first row is a `player1` line. -/
theorem c2_witness :
    ∃ c ∈ GameService.WINNING_COMBINATIONS,
      GameService.lineAll sampleWinBoard c PlayerKey.player1 :=
  (c2_checkWinner_characterization sampleWinBoard).2 PlayerKey.player1 (by decide)

/-- C10: the scan `getWinningCombination` yields a triple exactly when `checkWinner`
yields a player key, and that triple is completely occupied by the key
`checkWinner` reports. -/
theorem c10_winning_combination_agreement (b : Board) :
    ((GameService.getWinningCombination b).isSome =
      (GameService.checkWinner b).isSome) ∧
    (∀ c w, GameService.getWinningCombination b = some c →
      GameService.checkWinner b = some w → GameService.lineAll b c w) := by
  have h := GameService.winnerAux_parallel b GameService.WINNING_COMBINATIONS
  exact ⟨h.1, fun c w hc hw =>
    (GameService.lineWinner_eq_some_iff b c w).1 (h.2 c w hc hw)⟩

/-- Witness for C10: on the first-row board both functions fire, and the
returned triple is the first row occupied by `player1`. -/
theorem c10_witness :
    GameService.lineAll sampleWinBoard ((0, 0), (0, 1), (0, 2))
      PlayerKey.player1 :=
  (c10_winning_combination_agreement sampleWinBoard).2
    ((0, 0), (0, 1), (0, 2)) PlayerKey.player1 (by decide) (by decide)

/-- C3 (amended): on a valid move from a state whose `winner` field is
still `null` and whose board holds no winning triple yet — both facts are
invariants of every state the engine itself produces — `makeMove` returns
a fresh state (the input is untouched; the source deep-copies before
mutating) with the chosen cell set to the mover's key, the move appended
with `moveNumber` equal to the previous history length plus one, and
exactly one of: a winning triple of the mover exists and the status
becomes `finished` with `winner` the mover's id; the board is full with no
winning triple and the status becomes `draw` with `winner` null; otherwise
`currentPlayer` toggles and the status stays `playing`.  Without the two
extra hypotheses the claim fails, see the counterexample. -/
theorem c3_makeMove_transition (s : GameState) (pid : String) (x y : Int)
    (now : Nat)
    (hv : GameService.validateMove s pid x y = ValidationResult.valid)
    (hw : s.winner = none)
    (hnw : GameService.checkWinner s.board = none) :
    ∃ s', GameService.makeMove s pid x y now = GameService.MoveResult.success s' ∧
      s'.board = GameService.setCell s.board x y s.currentPlayer ∧
      GameService.getCellInt s'.board x y = some s.currentPlayer ∧
      s'.moveHistory = s.moveHistory ++
        [{ playerId := pid, playerKey := s.currentPlayer, x := x, y := y,
           timestamp := now, moveNumber := s.moveHistory.length + 1 }] ∧
      (((∃ c ∈ GameService.WINNING_COMBINATIONS,
            GameService.lineAll s'.board c s.currentPlayer) ∧
          s'.status = GameStatus.finished ∧ s'.winner = some pid) ∨
       ((∀ c ∈ GameService.WINNING_COMBINATIONS, ∀ w,
            ¬ GameService.lineAll s'.board c w) ∧
          GameService.isBoardFull s'.board = true ∧
          s'.status = GameStatus.draw ∧ s'.winner = none) ∨
       ((∀ c ∈ GameService.WINNING_COMBINATIONS, ∀ w,
            ¬ GameService.lineAll s'.board c w) ∧
          GameService.isBoardFull s'.board = false ∧
          s'.status = GameStatus.playing ∧ s'.winner = none ∧
          s'.currentPlayer = GameService.togglePlayer s.currentPlayer)) := by
  obtain ⟨hst, hpid, hx0, hx2, hy0, hy2, hcell⟩ :=
    (GameService.validateMove_eq_valid_iff s pid x y).1 hv
  unfold GameService.makeMove
  rw [hv]
  dsimp only
  cases hcw : GameService.checkWinner
      (GameService.setCell s.board x y s.currentPlayer) with
  | some w =>
    have hwkey : w = s.currentPlayer :=
      GameService.checkWinner_setCell s.board x y s.currentPlayer hnw w hcw
    refine ⟨_, rfl, rfl, ?_, rfl, ?_⟩
    · exact GameService.getCellInt_setCell_self s.board x y s.currentPlayer
        hx0 hx2 hy0 hy2
    · left
      refine ⟨?_, rfl, ?_⟩
      · subst hwkey
        exact GameService.exists_line_of_checkWinner_some _ _ hcw
      · subst hwkey
        rw [← hpid]
  | none =>
    by_cases hfull : GameService.isBoardFull
        (GameService.setCell s.board x y s.currentPlayer) = true
    · rw [if_pos hfull]
      refine ⟨_, rfl, rfl, ?_, rfl, ?_⟩
      · exact GameService.getCellInt_setCell_self s.board x y s.currentPlayer
          hx0 hx2 hy0 hy2
      · right; left
        exact ⟨GameService.no_line_of_checkWinner_none _ hcw, hfull, rfl, hw⟩
    · rw [if_neg hfull]
      refine ⟨_, rfl, rfl, ?_, rfl, ?_⟩
      · exact GameService.getCellInt_setCell_self s.board x y s.currentPlayer
          hx0 hx2 hy0 hy2
      · right; right
        refine ⟨GameService.no_line_of_checkWinner_none _ hcw, ?_, hst, hw, rfl⟩
        simpa using hfull

/-- Counterexample for C3 as frozen: the claim quantifies over *every*
state on which the move is valid, but on a (non-engine-produced) state
whose board already carries an opponent line, the valid move `(2,2)` by
player `"a"` finishes the game with `winner = "b"`, not the mover's id. -/
theorem c3_counterexample :
    GameService.validateMove c3ExState ("a") 2 2 = ValidationResult.valid ∧
    c3ExState.players.player1.id = "a" ∧
    c3ExState.currentPlayer = PlayerKey.player1 ∧
    (GameService.makeMove c3ExState ("a") 2 2 0).resultState.map
        (fun s => (s.status, s.winner)) =
      some (GameStatus.finished, some ("b")) := by
  refine ⟨by decide, rfl, rfl, by decide⟩

/-- Witness for C3: the opening move of a fresh game toggles the turn. -/
theorem c3_witness :
    ∃ s', GameService.makeMove sampleState ("a") 0 0 5 =
        GameService.MoveResult.success s' ∧
      s'.board = GameService.setCell sampleState.board 0 0 sampleState.currentPlayer ∧
      GameService.getCellInt s'.board 0 0 = some sampleState.currentPlayer ∧
      s'.moveHistory = sampleState.moveHistory ++
        [{ playerId := "a", playerKey := sampleState.currentPlayer, x := 0, y := 0,
           timestamp := 5, moveNumber := sampleState.moveHistory.length + 1 }] ∧
      (((∃ c ∈ GameService.WINNING_COMBINATIONS,
            GameService.lineAll s'.board c sampleState.currentPlayer) ∧
          s'.status = GameStatus.finished ∧ s'.winner = some ("a")) ∨
       ((∀ c ∈ GameService.WINNING_COMBINATIONS, ∀ w,
            ¬ GameService.lineAll s'.board c w) ∧
          GameService.isBoardFull s'.board = true ∧
          s'.status = GameStatus.draw ∧ s'.winner = none) ∨
       ((∀ c ∈ GameService.WINNING_COMBINATIONS, ∀ w,
            ¬ GameService.lineAll s'.board c w) ∧
          GameService.isBoardFull s'.board = false ∧
          s'.status = GameStatus.playing ∧ s'.winner = none ∧
          s'.currentPlayer = GameService.togglePlayer sampleState.currentPlayer)) :=
  c3_makeMove_transition sampleState "a" 0 0 5 (by decide) rfl (by decide)

/-- C4: when validation fails, `GameService.makeMove` reports the failure
without producing any new state, and the controller handler answers with a
`move-rejected` event while the `activeGames` table it returns is exactly
the table it was given, so board, `currentPlayer` and `moveHistory` of the
stored game are untouched. -/
theorem c4_rejected_move_leaves_state_unchanged
    (games : List (String × GameState)) (rid pid : String) (x y : Int)
    (now : Nat) (gs : GameState) (r : MoveReason)
    (hfind : getA games rid = some gs)
    (hinv : GameService.validateMove gs pid x y = ValidationResult.invalid r) :
    GameService.makeMove gs pid x y now = GameService.MoveResult.failure r ∧
    GameController.makeMove games rid pid x y now =
      (games, GameEvent.moveRejected r) := by
  constructor
  · unfold GameService.makeMove
    rw [hinv]
  · unfold GameController.makeMove
    rw [hfind]
    dsimp only
    rw [hinv]

/-- Witness for C4: moving in a finished game is rejected with
`GAME_NOT_ACTIVE` and the stored table comes back unchanged. -/
theorem c4_witness :
    GameService.makeMove sampleFinishedState ("a") 0 0 0 =
      GameService.MoveResult.failure MoveReason.GAME_NOT_ACTIVE ∧
    GameController.makeMove [(("r1"), sampleFinishedState)] ("r1") ("a") 0 0 0 =
      ([(("r1"), sampleFinishedState)],
       GameEvent.moveRejected MoveReason.GAME_NOT_ACTIVE) :=
  c4_rejected_move_leaves_state_unchanged [("r1", sampleFinishedState)]
    "r1" "a" 0 0 0 sampleFinishedState MoveReason.GAME_NOT_ACTIVE rfl (by decide)

/-- C5 fails on the code: the first replacement (`/<[^>]*>/g`) strips the
`<script>` and `</script>` tags, so the dedicated script-block
replacement that the source documents as removing "script tags and their
content" never matches, and the payload text `alert(1)` survives
sanitization.  The claim (and the spec scenario) expect only `hello` to
remain. -/
theorem c5_sanitize_retains_script_content :
    Validation.sanitizeChatMessage ("<script>alert(1)</script>hello") =
      "alert(1)hello" := by
  decide

/-- Counterexample for C6: after `"p"` has already left room `"R"`, a
second `leaveRoom` call for `"p"` still emits a `player-left` broadcast —
the source emits unconditionally whenever the room exists — so the call is
not broadcast-free as the claim requires. -/
theorem c6_counterexample :
    (RoomController.leaveRoom
        (RoomController.leaveRoom c6State ("p") ("R")).1 ("p") ("R")).2 =
      [RoomEvent.playerLeft ("p") ("R")] := by
  decide

/-- C6 (amended): the function `leaveRoom`, for a player who is not a member of an
existing, still non-empty room leaves the room's membership unchanged in
both the in-memory index and the database mirror, but it is not a no-op:
it removes the player's entry from the player→room index (wherever that
entry pointed) and emits a `player-left` broadcast anyway.  Only a call
naming a non-existent room is a complete no-op. -/
theorem c6_leaveRoom_nonmember (st : ServerState) (pid rid : String)
    (room : Room)
    (hg : getA st.activeRooms rid = some room)
    (hmem : getA room.players pid = none)
    (hne : room.players ≠ []) :
    ((getA (RoomController.leaveRoom st pid rid).1.activeRooms rid).map
        Room.players = some room.players) ∧
    ((getA (RoomController.leaveRoom st pid rid).1.dbRooms rid).map
        Room.players = some room.players) ∧
    (RoomController.leaveRoom st pid rid).1.playerRooms =
      eraseA st.playerRooms pid ∧
    (RoomController.leaveRoom st pid rid).2 = [RoomEvent.playerLeft pid rid] := by
  have he : eraseA room.players pid = room.players :=
    eraseA_of_getA_none room.players pid hmem
  have hlen : (eraseA room.players pid).length ≠ 0 := by
    rw [he]
    cases hp : room.players with
    | nil => exact absurd hp hne
    | cons a t => simp [hp]
  unfold RoomController.leaveRoom
  rw [hg]
  dsimp only
  rw [if_neg hlen]
  refine ⟨?_, ?_, rfl, rfl⟩
  · rw [getA_setA_self]
    simp [he]
  · rw [getA_setA_self]
    simp [he]

/-- Witness for C6 at a room that only contains `"q"`: a leave by the
absent `"p"` keeps the membership and still broadcasts. -/
theorem c6_witness :
    ((getA (RoomController.leaveRoom c6WitState ("p") ("R")).1.activeRooms
        ("R")).map Room.players = some c6WitRoom.players) ∧
    ((getA (RoomController.leaveRoom c6WitState ("p") ("R")).1.dbRooms
        ("R")).map Room.players = some c6WitRoom.players) ∧
    (RoomController.leaveRoom c6WitState ("p") ("R")).1.playerRooms =
      eraseA c6WitState.playerRooms ("p") ∧
    (RoomController.leaveRoom c6WitState ("p") ("R")).2 =
      [RoomEvent.playerLeft ("p") ("R")] :=
  c6_leaveRoom_nonmember c6WitState "p" "R" c6WitRoom (by decide) (by decide)
    (by decide)

/-- C7: the admission check `checkLimit` admits an event exactly when both the same-type count
in the last 60 seconds is below the per-minute limit and the same-type
count in the last 10 seconds is below the burst limit, with both counts
taken on the stored events before the new one is inserted (on admission
the new event is appended to the pruned list); event types without an
explicit entry fall back to 60 per minute and 20 per 10 seconds. -/
theorem c7_checkLimit_iff (c : ClientData) (t : String) (now : Nat) :
    ((SocketRateLimiter.checkLimit c t now).1 = true ↔
      (SocketRateLimiter.countInWindow c.events t now 60000 <
         SocketRateLimiter.minuteLimitFor t ∧
       SocketRateLimiter.countInWindow c.events t now 10000 <
         SocketRateLimiter.burstLimitFor t)) ∧
    ((SocketRateLimiter.checkLimit c t now).1 = true →
      (SocketRateLimiter.checkLimit c t now).2.events =
        (c.events.filter fun e => decide (now - e.timestamp < 60000)) ++
          [{ type := t, timestamp := now }]) ∧
    (t ∉ SocketRateLimiter.minuteKeys → SocketRateLimiter.minuteLimitFor t = 60) ∧
    (t ∉ SocketRateLimiter.burstKeys → SocketRateLimiter.burstLimitFor t = 20) := by
  have hm := SocketRateLimiter.count_minute_eq c.events t now
  have hb := SocketRateLimiter.count_burst_eq c.events t now
  refine ⟨?_, ?_, ?_, ?_⟩
  · unfold SocketRateLimiter.checkLimit
    dsimp only
    split_ifs with h1 h2
    · rw [hm] at h1
      simp only [Bool.false_eq_true, false_iff]
      intro hcon
      omega
    · rw [hb] at h2
      simp only [Bool.false_eq_true, false_iff]
      intro hcon
      omega
    · rw [hm] at h1
      rw [hb] at h2
      simp only [true_iff]
      omega
  · unfold SocketRateLimiter.checkLimit
    dsimp only
    split_ifs with h1 h2
    · intro hcon
      exact absurd hcon (by simp)
    · intro hcon
      exact absurd hcon (by simp)
    · intro _
      rfl
  · intro hmem
    simp only [SocketRateLimiter.minuteKeys, List.mem_cons,
      List.not_mem_nil, or_false, not_or] at hmem
    obtain ⟨n1, n2, n3, n4, n5, n6, n7⟩ := hmem
    simp [SocketRateLimiter.minuteLimitFor, n1, n2, n3, n4, n5, n6, n7]
  · intro hmem
    simp only [SocketRateLimiter.burstKeys, List.mem_cons,
      List.not_mem_nil, or_false, not_or] at hmem
    obtain ⟨n1, n2, n3, n4⟩ := hmem
    simp [SocketRateLimiter.burstLimitFor, n1, n2, n3, n4]

/-- Witness for C7: a fresh client and the unlisted type `"foo"`: the
event is admitted, appended, and governed by the default limits. -/
theorem c7_witness :
    ((SocketRateLimiter.checkLimit { events := [], lastSeen := 0, warnings := 0 }
        ("foo") 7).1 = true) ∧
    (SocketRateLimiter.checkLimit { events := [], lastSeen := 0, warnings := 0 }
        ("foo") 7).2.events = [{ type := "foo", timestamp := 7 }] ∧
    SocketRateLimiter.minuteLimitFor ("foo") = 60 ∧
    SocketRateLimiter.burstLimitFor ("foo") = 20 := by
  have h := c7_checkLimit_iff { events := [], lastSeen := 0, warnings := 0 } "foo" 7
  refine ⟨?_, ?_, h.2.2.1 (by decide), h.2.2.2 (by decide)⟩
  · exact h.1.mpr ⟨by decide, by decide⟩
  · have hadm := h.1.mpr ⟨by decide, by decide⟩
    simpa using h.2.1 hadm

/-- Counterexample for C8 as frozen: the reachable state after
`create A by p1; join A by p2; create B by p1; leave A by p2` has room `A`
still in status `playing` with a single member, and `p1` a member of both
`A` and `B` at once — `createRoom` never removes its caller from a prior
room and `leaveRoom` never resets a playing room's status.  Only the
capacity clause of the claimed invariant survives. -/
theorem c8_counterexample :
    RoomController.Reachable c8CexState ∧
    ((getA c8CexState.activeRooms ("A")).map
        (fun r => (r.status, r.players.length)) =
      some (RoomStatus.playing, 1)) ∧
    ((getA c8CexState.activeRooms ("A")).map
        (fun r => (getA r.players ("p1")).isSome) = some true) ∧
    ((getA c8CexState.activeRooms ("B")).map
        (fun r => (getA r.players ("p1")).isSome) = some true) := by
  refine ⟨?_, by decide, by decide, by decide⟩
  exact RoomController.Reachable.step
    (RoomController.Reachable.step
      (RoomController.Reachable.step
        (RoomController.Reachable.step RoomController.Reachable.init
          (show 2 ≤ 2 ∧ 2 ≤ 10 from ⟨by omega, by omega⟩))
        trivial)
      (show 2 ≤ 2 ∧ 2 ≤ 10 from ⟨by omega, by omega⟩))
    trivial

/-- C8 (amended): in every state reachable by `createRoom`, `joinRoom`,
`leaveRoom` and `disconnect` (with schema-validated capacities), the
membership of every room fits its capacity — `joinRoom` refuses with
`RoomFull` rather than exceed it.  The other two clauses of the frozen
claim (playing ⇒ exactly two members; at most one room per player) fail
on the code, see the counterexample. -/
theorem c8_capacity_invariant (st : ServerState)
    (h : RoomController.Reachable st) :
    ∀ rid room, getA st.activeRooms rid = some room →
      room.players.length ≤ room.maxPlayers := by
  intro rid room hg
  exact ((RoomController.reachable_capInv st h).2 rid room hg).1

/-- Witness for C8 at the state reached by a single `createRoom`. -/
theorem c8_witness : c8WitRoom.players.length ≤ c8WitRoom.maxPlayers :=
  c8_capacity_invariant
    (RoomController.applyOp RoomController.initialState c8Op1).1
    (RoomController.Reachable.step RoomController.Reachable.init
      (show 2 ≤ 2 ∧ 2 ≤ 10 from ⟨by omega, by omega⟩))
    "A" c8WitRoom (by decide)

/-- Counterexample for C9: when the last member leaves, the room is gone
from the in-memory index *and* from durable storage in the very same
`leaveRoom` call — there is no 5-minute grace period for it. -/
theorem c9_counterexample :
    getA (RoomController.leaveRoom c9State ("p") ("R")).1.activeRooms ("R") =
      none ∧
    getA (RoomController.leaveRoom c9State ("p") ("R")).1.dbRooms ("R") =
      none := by
  decide

/-- C9 (amended): the function `leaveRoom` deletes a room immediately, from the
in-memory index and from durable storage — as soon as its membership
reaches zero; separately, the periodic `cleanupEmptyRooms` sweep removes
rooms that have had zero members for more than 5 minutes since creation
(which can only arise for rooms rehydrated empty from storage). -/
theorem c9_empty_room_deletion :
    (∀ (st : ServerState) (pid rid : String) (room : Room) (v : RPlayer),
      (keysA st.activeRooms).Nodup → (keysA st.dbRooms).Nodup →
      getA st.activeRooms rid = some room →
      room.players = [(pid, v)] →
      getA (RoomController.leaveRoom st pid rid).1.activeRooms rid = none ∧
      getA (RoomController.leaveRoom st pid rid).1.dbRooms rid = none ∧
      (RoomController.leaveRoom st pid rid).2 =
        [RoomEvent.playerLeft pid rid]) ∧
    (∀ (st : ServerState) (now : Nat) (rid : String) (room : Room),
      (keysA st.activeRooms).Nodup →
      getA st.activeRooms rid = some room →
      room.currentPlayers = 0 → 300000 < now - room.createdAt →
      getA (RoomController.cleanupEmptyRooms st now).activeRooms rid = none) := by
  constructor
  · intro st pid rid room v hnda hndd hg hone
    have he : eraseA room.players pid = [] := by
      rw [hone]
      simp [eraseA]
    unfold RoomController.leaveRoom
    rw [hg]
    dsimp only
    rw [he]
    dsimp only [List.length_nil]
    rw [if_pos rfl]
    exact ⟨getA_eraseA_self _ _ hnda, getA_eraseA_self _ _ hndd, rfl⟩
  · intro st now rid room hnd hg hzero hage
    unfold RoomController.cleanupEmptyRooms
    dsimp only
    apply getA_filter_eq_none st.activeRooms rid room _ hnd hg
    simp [hzero, hage]

/-- Witness for C9: the single-member room of `c9State` is deleted by the
leave, and the sweep at `now = 400000` evicts the long-empty room. -/
theorem c9_witness :
    (getA (RoomController.leaveRoom c9State ("p") ("R")).1.activeRooms ("R") =
        none ∧
      getA (RoomController.leaveRoom c9State ("p") ("R")).1.dbRooms ("R") =
        none ∧
      (RoomController.leaveRoom c9State ("p") ("R")).2 =
        [RoomEvent.playerLeft ("p") ("R")]) ∧
    getA (RoomController.cleanupEmptyRooms c9EmptyState 400000).activeRooms
        ("R") = none :=
  ⟨c9_empty_room_deletion.1 c9State "p" "R" c9Room { id := "p", name := "P" }
      (by decide) (by decide) (by decide) (by decide),
   c9_empty_room_deletion.2 c9EmptyState 400000 "R" c9EmptyRoom
      (by decide) (by decide) rfl (by decide)⟩
